import Mathlib

/-
Shallow embedding of src/src/core/src/internal_state.rs from the zoc
repository: the turn-based wargame world-state machine.  Types that the
file consumes from sibling crates (Unit, UnitInfo, CoreEvent, Db, Map,
MoveMode, FireMode, Path) are reconstructed here from the fields and
methods this file actually uses.  Machine integers of the source (ZInt,
i.e. i32) are modelled as Int; the source never exercises overflow.
Fatal assertions (assert! and expect/panic) are modelled by returning
none from the transition, so `apply_event ... = some s` means the event
was applied without hitting any fatal precondition.
-/

namespace Zoc

abbrev PlayerId := Nat
abbrev UnitId := Nat
abbrev TypeId := Nat

structure MapPos where
  x : Int
  y : Int
deriving DecidableEq

structure Size2 where
  w : Int
  h : Int
deriving DecidableEq

inductive Terrain
  | plain
  | trees
deriving DecidableEq

/-- Terrain grid, an external collaborator of internal_state.rs: modelled
as a total tile function plus the construction size. -/
structure Map where
  size : Size2
  tiles : MapPos → Terrain

def Map.new (size : Size2) (t : Terrain) : Map :=
  { size := size, tiles := fun _ => t }

/-- Models `*map.tile_mut(&pos) = t`. -/
def Map.set_tile (m : Map) (p : MapPos) (t : Terrain) : Map :=
  { m with tiles := fun q => if q = p then t else m.tiles q }

/-- Unit type template from the static rules database (db crate). -/
structure UnitType where
  move_points : Int
  attack_points : Int
  reactive_attack_points : Int
  count : Int
  is_transporter : Bool
deriving DecidableEq

/-- The static rules database: `db.unit_type(&type_id)` lookup. -/
abbrev Db := TypeId → UnitType

/-- Runtime unit record (unit crate), with exactly the fields
internal_state.rs reads and writes.  The source spelling `passanger_id`
is kept. -/
structure Unit where
  id : UnitId
  pos : MapPos
  player_id : PlayerId
  type_id : TypeId
  move_points : Int
  attack_points : Int
  reactive_attack_points : Option Int
  count : Int
  morale : Int
  passanger_id : Option UnitId
deriving DecidableEq

/-- Unit creation payload carried by CreateUnit / ShowUnit / UnloadUnit. -/
structure UnitInfo where
  unit_id : UnitId
  pos : MapPos
  player_id : PlayerId
  type_id : TypeId
  passanger_id : Option UnitId
deriving DecidableEq

inductive FireMode
  | active
  | reactive
deriving DecidableEq

/-- Movement modes: Fast, and the careful mode (source: any non-Fast
mode doubles the cost). -/
inductive MoveMode
  | fast
  | hunt
deriving DecidableEq

structure MoveCost where
  n : Int
deriving DecidableEq

/-- Of the external path type the source uses only `destination()` and
`total_cost()`. -/
structure Path where
  destination : MapPos
  total_cost : MoveCost
deriving DecidableEq

inductive CoreEvent
  | move (unit_id : UnitId) (path : Path) (mode : MoveMode)
  | endTurn (old_id : PlayerId) (new_id : PlayerId)
  | createUnit (unit_info : UnitInfo)
  | attackUnit (attacker_id : Option UnitId) (defender_id : UnitId)
      (mode : FireMode) (killed : Int) (suppression : Int)
      (remove_move_points : Bool)
  | showUnit (unit_info : UnitInfo)
  | hideUnit (unit_id : UnitId)
  | loadUnit (passanger_id : UnitId) (transporter_id : UnitId)
  | unloadUnit (transporter_id : UnitId) (unit_info : UnitInfo)

/-- InfoLevel::Full / InfoLevel::Partial (the second constructor is
renamed because its source name is a Lean keyword). -/
inductive InfoLevel
  | full
  | limited
deriving DecidableEq

/-- The HashMap<UnitId, Unit> of the state, as a lookup function. -/
abbrev UnitsMap := UnitId → Option Unit

def updateUnits (m : UnitsMap) (k : UnitId) (v : Unit) : UnitsMap :=
  fun i => if i = k then some v else m i

def removeUnit (m : UnitsMap) (k : UnitId) : UnitsMap :=
  fun i => if i = k then none else m i

structure InternalState where
  units : UnitsMap
  map : Map

/-- InternalState::new: all-Plain grid with five Trees tiles carved at
fixed coordinates. -/
def InternalState.new (map_size : Size2) : InternalState :=
  let m := Map.new map_size Terrain.plain
  let m := m.set_tile ⟨4, 3⟩ Terrain.trees
  let m := m.set_tile ⟨4, 4⟩ Terrain.trees
  let m := m.set_tile ⟨4, 5⟩ Terrain.trees
  let m := m.set_tile ⟨5, 5⟩ Terrain.trees
  let m := m.set_tile ⟨6, 4⟩ Terrain.trees
  { units := fun _ => none, map := m }

/-- Query `unit(id)`; the source indexes the HashMap and panics when the
id is absent, here the absent case is none. -/
def InternalState.unit (s : InternalState) (id : UnitId) : Option Unit :=
  s.units id

/-- convert_ap: for every unit of the given player, fold unspent active
attack points into reactive attack points (when tracked) and zero the
active attack points. -/
def convert_ap (units : UnitsMap) (player_id : PlayerId) : UnitsMap :=
  fun i => (units i).map fun u =>
    if u.player_id = player_id then
      { u with
        reactive_attack_points := u.reactive_attack_points.map (· + u.attack_points),
        attack_points := 0 }
    else u

/-- refresh_units: for every unit of the given player, reset movement
and attack points from the type template (reactive only when tracked)
and add 10 morale. -/
def refresh_units (db : Db) (units : UnitsMap) (player_id : PlayerId) : UnitsMap :=
  fun i => (units i).map fun u =>
    if u.player_id = player_id then
      let unit_type := db u.type_id
      { u with
        move_points := unit_type.move_points,
        attack_points := unit_type.attack_points,
        reactive_attack_points :=
          u.reactive_attack_points.map fun _ => unit_type.reactive_attack_points,
        morale := u.morale + 10 }
    else u

/-- The Unit record built by add_unit from the type template. -/
def mkUnit (db : Db) (unit_info : UnitInfo) (info_level : InfoLevel) : Unit :=
  let unit_type := db unit_info.type_id
  { id := unit_info.unit_id
    pos := unit_info.pos
    player_id := unit_info.player_id
    type_id := unit_info.type_id
    move_points := unit_type.move_points
    attack_points := unit_type.attack_points
    reactive_attack_points :=
      match info_level with
      | .full => some unit_type.reactive_attack_points
      | .limited => none
    count := unit_type.count
    morale := 100
    passanger_id :=
      match info_level with
      | .full => unit_info.passanger_id
      | .limited => none }

/-- add_unit, with its duplicate-identity assertion as the none case. -/
def add_unit (db : Db) (units : UnitsMap) (unit_info : UnitInfo)
    (info_level : InfoLevel) : Option UnitsMap :=
  match units unit_info.unit_id with
  | some _ => none
  | none => some (updateUnits units unit_info.unit_id (mkUnit db unit_info info_level))

/-- The defender record after the damage lines of the AttackUnit arm:
count -= killed, morale -= suppression, and movement zeroed when
remove_move_points is set. -/
def attackDamage (d : Unit) (killed : Int) (suppression : Int)
    (remove_move_points : Bool) : Unit :=
  { d with
    count := d.count - killed,
    morale := d.morale - suppression,
    move_points := if remove_move_points then 0 else d.move_points }

/-- The defender block of the AttackUnit arm: damage the defender and
remove it when its troop count drops to zero or below. -/
def attackDefender (units : UnitsMap) (defender_id : UnitId)
    (killed : Int) (suppression : Int) (remove_move_points : Bool) :
    Option UnitsMap :=
  match units defender_id with
  | none => none
  | some d =>
    let d := attackDamage d killed suppression remove_move_points
    let units := updateUnits units defender_id d
    some (if d.count ≤ 0 then removeUnit units defender_id else units)

/-- apply_event: the transition table over CoreEvent. -/
def apply_event (db : Db) (s : InternalState) (event : CoreEvent) :
    Option InternalState :=
  match event with
  | .move unit_id path mode =>
    match s.units unit_id with
    | none => none
    | some u0 =>
      let u1 : Unit := { u0 with pos := path.destination }
      if u1.move_points > 0 then
        let u2 : Unit :=
          match mode with
          | .fast => { u1 with move_points := u1.move_points - path.total_cost.n }
          | .hunt => { u1 with move_points := u1.move_points - path.total_cost.n * 2 }
        if u2.move_points ≥ 0 then
          some { s with units := updateUnits s.units unit_id u2 }
        else none
      else none
  | .endTurn old_id new_id =>
    some { s with units := convert_ap (refresh_units db s.units new_id) old_id }
  | .createUnit unit_info =>
    match add_unit db s.units unit_info .full with
    | none => none
    | some m => some { s with units := m }
  | .attackUnit attacker_id defender_id mode killed suppression remove_move_points =>
    match attackDefender s.units defender_id killed suppression remove_move_points with
    | none => none
    | some units2 =>
      match attacker_id with
      | none => some { s with units := units2 }
      | some aid =>
        match units2 aid with
        | none => some { s with units := units2 }
        | some a =>
          match mode with
          | .active =>
            if a.attack_points ≥ 1 then
              let a := { a with attack_points := a.attack_points - 1 }
              some { s with units := updateUnits units2 aid a }
            else none
          | .reactive =>
            match a.reactive_attack_points with
            | none => some { s with units := units2 }
            | some r =>
              if r ≥ 1 then
                let a := { a with reactive_attack_points := some (r - 1) }
                some { s with units := updateUnits units2 aid a }
              else none
  | .showUnit unit_info =>
    match add_unit db s.units unit_info .limited with
    | none => none
    | some m => some { s with units := m }
  | .hideUnit unit_id =>
    match s.units unit_id with
    | none => none
    | some _ => some { s with units := removeUnit s.units unit_id }
  | .loadUnit passanger_id transporter_id =>
    match s.units transporter_id with
    | none => none
    | some t =>
      let units1 := updateUnits s.units transporter_id
        { t with passanger_id := some passanger_id }
      match units1 passanger_id with
      | none => none
      | some p =>
        let p := { p with pos := t.pos, move_points := 0 }
        some { s with units := updateUnits units1 passanger_id p }
  | .unloadUnit transporter_id unit_info =>
    match s.units transporter_id with
    | none => none
    | some t =>
      let units1 := updateUnits s.units transporter_id { t with passanger_id := none }
      match units1 unit_info.unit_id with
      | some u =>
        let u := { u with pos := unit_info.pos }
        some { s with units := updateUnits units1 unit_info.unit_id u }
      | none =>
        match add_unit db units1 unit_info .limited with
        | none => none
        | some m => some { s with units := m }

/-- Left fold of apply_event over an event list, failing as soon as one
event hits a fatal precondition. -/
def applyEvents (db : Db) (s : InternalState) : List CoreEvent → Option InternalState
  | [] => some s
  | e :: es => (apply_event db s e).bind fun s1 => applyEvents db s1 es

/-- Numeric budget invariant of one unit: movement points, active attack
points, and reactive attack points when tracked, are all non-negative. -/
def UnitOk (u : Unit) : Prop :=
  0 ≤ u.move_points ∧ 0 ≤ u.attack_points ∧
    ∀ r, u.reactive_attack_points = some r → 0 ≤ r

/-- The budget invariant over a whole unit mapping. -/
def UnitsOk (m : UnitsMap) : Prop :=
  ∀ id u, m id = some u → UnitOk u

def StateOk (s : InternalState) : Prop :=
  UnitsOk s.units

/-- Non-negative budgets in every unit type template of the database. -/
def DbOk (db : Db) : Prop :=
  ∀ t, 0 ≤ (db t).move_points ∧ 0 ≤ (db t).attack_points ∧
    0 ≤ (db t).reactive_attack_points

/-- A freshly inserted unit: morale 100 and movement points, active
attack points and troop count taken from the type template. -/
def templateFresh (db : Db) (unit_info : UnitInfo) (u : Unit) : Prop :=
  u.morale = 100 ∧
  u.move_points = (db unit_info.type_id).move_points ∧
  u.attack_points = (db unit_info.type_id).attack_points ∧
  u.count = (db unit_info.type_id).count

/- Concrete objects used by the witness and counterexample theorems. -/

def exType : UnitType :=
  { move_points := 3, attack_points := 1, reactive_attack_points := 1,
    count := 5, is_transporter := true }

def exDb : Db := fun _ => exType

def exS0 : InternalState := InternalState.new ⟨10, 10⟩

/-- Fallback unit for Option.getD in concrete computations. -/
def u0 : Unit :=
  { id := 0, pos := ⟨0, 0⟩, player_id := 0, type_id := 0, move_points := 0,
    attack_points := 0, reactive_attack_points := none, count := 0,
    morale := 0, passanger_id := none }

/-- Unit 1, owned by player 2. -/
def exInfoB : UnitInfo :=
  { unit_id := 1, pos := ⟨0, 0⟩, player_id := 2, type_id := 0, passanger_id := none }

/-- Unit 2, owned by player 1. -/
def exInfoA : UnitInfo :=
  { unit_id := 2, pos := ⟨1, 0⟩, player_id := 1, type_id := 0, passanger_id := none }

/-- State with unit 1 (player 2) and unit 2 (player 1) created. -/
def exS : InternalState :=
  (applyEvents exDb exS0
    [CoreEvent.createUnit exInfoB, CoreEvent.createUnit exInfoA]).getD exS0

def exU1 : Unit := (exS.units 1).getD u0

def exU2 : Unit := (exS.units 2).getD u0

/-- exS after EndTurn with outgoing player 1 and incoming player 2. -/
def exC1S1 : InternalState :=
  (apply_event exDb exS (CoreEvent.endTurn 1 2)).getD exS0

/-- exC1S1 after EndTurn with outgoing player 2 and incoming player 1. -/
def exC1S2 : InternalState :=
  (apply_event exDb exC1S1 (CoreEvent.endTurn 2 1)).getD exS0

def exC1U1 : Unit := (exC1S2.units 1).getD u0

def exC1U2 : Unit := (exC1S2.units 2).getD u0

/-- Final state of the C2 witness scenario. -/
def exC2S2 : InternalState :=
  (applyEvents exDb exS
    [CoreEvent.move 1 ⟨⟨2, 0⟩, ⟨2⟩⟩ MoveMode.fast,
     CoreEvent.attackUnit (some 2) 1 FireMode.active 1 10 true,
     CoreEvent.endTurn 1 2]).getD exS0

def exC2U : Unit := (exC2S2.units 1).getD u0

/-- exS after unit 2 attacks unit 1 with killed 5: the defender dies. -/
def exC3S2 : InternalState :=
  (apply_event exDb exS
    (CoreEvent.attackUnit (some 2) 1 FireMode.active 5 0 false)).getD exS0

/-- Defender phase of the C4 witness attack (killed 1, suppression 10). -/
def exC4units2 : UnitsMap :=
  (attackDefender exS.units 1 1 10 false).getD exS.units

def exC4A : Unit := (exC4units2 2).getD u0

/-- exS after unit 1 moves a cost-2 path to (2,0) in fast mode. -/
def exC5S2 : InternalState :=
  (apply_event exDb exS (CoreEvent.move 1 ⟨⟨2, 0⟩, ⟨2⟩⟩ MoveMode.fast)).getD exS0

/-- State with a partial-information transporter: unit 1 revealed by
ShowUnit, unit 2 created, then unit 2 loaded into unit 1. -/
def exC6S2 : InternalState :=
  (applyEvents exDb exS0
    [CoreEvent.showUnit exInfoB, CoreEvent.createUnit exInfoA,
     CoreEvent.loadUnit 2 1]).getD exS0

/-- exS0 after ShowUnit of unit 1. -/
def exC6Show : InternalState :=
  (apply_event exDb exS0 (CoreEvent.showUnit exInfoB)).getD exS0

def exC6U : Unit := (exC6Show.units 1).getD u0

/-- exS after loading unit 2 into transporter unit 1. -/
def exC7S2 : InternalState :=
  (apply_event exDb exS (CoreEvent.loadUnit 2 1)).getD exS0

/-- exS after a self-directed lethal attack: unit 1 is both attacker and
defender and dies in the defender phase. -/
def exC9units2 : UnitsMap :=
  (attackDefender exS.units 1 5 0 false).getD exS.units

/-- exS0 after CreateUnit of unit 1. -/
def exC10S2 : InternalState :=
  (apply_event exDb exS0 (CoreEvent.createUnit exInfoB)).getD exS0

theorem updateUnits_self (m : UnitsMap) (k : UnitId) (v : Unit) :
    updateUnits m k v k = some v := by
  simp [updateUnits]

theorem updateUnits_other (m : UnitsMap) (k : UnitId) (v : Unit) (i : UnitId)
    (h : i ≠ k) : updateUnits m k v i = m i := by
  simp [updateUnits, h]

theorem removeUnit_self (m : UnitsMap) (k : UnitId) : removeUnit m k k = none := by
  simp [removeUnit]

theorem removeUnit_other (m : UnitsMap) (k : UnitId) (i : UnitId)
    (h : i ≠ k) : removeUnit m k i = m i := by
  simp [removeUnit, h]

/-- Claim C8: applying any game event leaves the terrain map unchanged;
terrain is written only by InternalState.new during construction. -/
theorem apply_event_preserves_map (db : Db) (s : InternalState) (e : CoreEvent)
    (s₂ : InternalState) (h : apply_event db s e = some s₂) : s₂.map = s.map := by
  cases e <;> simp only [apply_event] at h
  all_goals repeat' split at h
  all_goals try cases h
  all_goals rfl

/-- Claim C8 witness. -/
theorem apply_event_preserves_map_witness : exC1S1.map = exS.map :=
  apply_event_preserves_map exDb exS (CoreEvent.endTurn 1 2) exC1S1 rfl

/-- Claim C9: an AttackUnit whose attacker identity is absent from the
mapping after the defender is resolved (for instance when the attacker
is the defender itself and was just removed) completes without error and
performs no attack-point debit. -/
theorem attack_absent_attacker_skips_debit (db : Db) (s : InternalState)
    (aid defender_id : UnitId) (mode : FireMode) (killed suppression : Int)
    (remove_move_points : Bool) (units2 : UnitsMap)
    (hdef : attackDefender s.units defender_id killed suppression remove_move_points
      = some units2)
    (ha : units2 aid = none) :
    apply_event db s
      (CoreEvent.attackUnit (some aid) defender_id mode killed suppression
        remove_move_points)
      = some { s with units := units2 } := by
  simp only [apply_event, hdef, ha]

/-- Claim C9 witness: unit 1 lethally attacks itself; the event still
applies and the final units are exactly the defender-phase units. -/
theorem attack_absent_attacker_skips_debit_witness :
    apply_event exDb exS (CoreEvent.attackUnit (some 1) 1 FireMode.active 5 0 false)
      = some { exS with units := exC9units2 } :=
  attack_absent_attacker_skips_debit exDb exS 1 1 FireMode.active 5 0 false
    exC9units2 rfl rfl

/-- Claim C5: Move sets the position of the unit to the path destination
and deducts the path total cost times 1 in fast mode and times 2 in any
other mode, under the fatal preconditions that movement points were
positive before the deduction and non-negative after it. -/
theorem move_updates_position_and_points (db : Db) (s : InternalState)
    (unit_id : UnitId) (path : Path) (mode : MoveMode) (s₂ : InternalState) (u : Unit)
    (hu : s.units unit_id = some u)
    (h : apply_event db s (CoreEvent.move unit_id path mode) = some s₂) :
    u.move_points > 0 ∧
    0 ≤ u.move_points - path.total_cost.n * (match mode with | .fast => 1 | .hunt => 2) ∧
    s₂.units unit_id = some { u with
      pos := path.destination,
      move_points :=
        u.move_points - path.total_cost.n *
          (match mode with | .fast => 1 | .hunt => 2) } := by
  cases mode
  case fast =>
    simp only [apply_event, hu] at h
    split at h
    · rename_i hpos
      split at h
      · rename_i hnn
        simp only [Option.some.injEq] at h
        subst h
        refine ⟨hpos, by simpa using hnn, ?_⟩
        simp [updateUnits_self]
      · cases h
    · cases h
  case hunt =>
    simp only [apply_event, hu] at h
    split at h
    · rename_i hpos
      split at h
      · rename_i hnn
        simp only [Option.some.injEq] at h
        subst h
        refine ⟨hpos, by simpa using hnn, ?_⟩
        simp [updateUnits_self]
      · cases h
    · cases h

/-- Claim C5 witness: unit 1 with budget 3 moves a cost 2 path in fast
mode and ends at (2,0) with 1 movement point. -/
theorem move_updates_position_and_points_witness :
    exU1.move_points > 0 ∧
    0 ≤ exU1.move_points - 2 * 1 ∧
    exC5S2.units 1 = some { exU1 with pos := ⟨2, 0⟩, move_points := exU1.move_points - 2 * 1 } :=
  move_updates_position_and_points exDb exS 1 ⟨⟨2, 0⟩, ⟨2⟩⟩ MoveMode.fast exC5S2 exU1
    rfl rfl

/-- Claim C7: LoadUnit with both passenger P and transporter T present
sets the passenger reference of T to P, moves P to the position of T and
zeroes the movement points of P, so that a position query for P returns
the position of T. -/
theorem load_unit_updates (db : Db) (s : InternalState) (P T : UnitId)
    (p t : Unit) (hp : s.units P = some p) (ht : s.units T = some t) :
    ∃ s₂, apply_event db s (CoreEvent.loadUnit P T) = some s₂ ∧
      (∃ t₂, s₂.units T = some t₂ ∧ t₂.passanger_id = some P) ∧
      (∃ p₂, s₂.units P = some p₂ ∧ p₂.pos = t.pos ∧ p₂.move_points = 0) ∧
      (s₂.unit P).map Unit.pos = some t.pos := by
  by_cases hPT : P = T
  · subst hPT
    rw [hp] at ht
    obtain rfl : p = t := by injection ht
    have happly : apply_event db s (CoreEvent.loadUnit P P) = some { s with units := updateUnits (updateUnits s.units P { p with passanger_id := some P }) P { p with passanger_id := some P, pos := p.pos, move_points := 0 } } := by
      simp only [apply_event, hp, updateUnits_self]
    refine ⟨_, happly, ⟨{ p with passanger_id := some P, pos := p.pos, move_points := 0 }, updateUnits_self _ _ _, rfl⟩, ⟨{ p with passanger_id := some P, pos := p.pos, move_points := 0 }, updateUnits_self _ _ _, rfl, rfl⟩, ?_⟩
    simp [InternalState.unit, updateUnits_self]
  · have hun : updateUnits s.units T { t with passanger_id := some P } P = some p := by
      rw [updateUnits_other _ _ _ _ hPT]
      exact hp
    have happly : apply_event db s (CoreEvent.loadUnit P T) = some { s with units := updateUnits (updateUnits s.units T { t with passanger_id := some P }) P { p with pos := t.pos, move_points := 0 } } := by
      simp only [apply_event, ht, hun]
    refine ⟨_, happly, ⟨{ t with passanger_id := some P }, ?_, rfl⟩, ⟨{ p with pos := t.pos, move_points := 0 }, updateUnits_self _ _ _, rfl, rfl⟩, ?_⟩
    · dsimp only
      rw [updateUnits_other _ _ _ _ (Ne.symm hPT), updateUnits_self]
    · simp [InternalState.unit, updateUnits_self]

/-- Claim C7 witness: loading unit 2 into transporter unit 1. -/
theorem load_unit_updates_witness :
    ∃ s₂, apply_event exDb exS (CoreEvent.loadUnit 2 1) = some s₂ ∧
      (∃ t₂, s₂.units 1 = some t₂ ∧ t₂.passanger_id = some 2) ∧
      (∃ p₂, s₂.units 2 = some p₂ ∧ p₂.pos = exU1.pos ∧ p₂.move_points = 0) ∧
      (s₂.unit 2).map Unit.pos = some exU1.pos :=
  load_unit_updates exDb exS 2 1 exU2 exU1 rfl rfl

/-- Claim C10: every unit inserted by CreateUnit, ShowUnit, or the
UnloadUnit branch that materializes a previously invisible passenger,
starts with morale 100 and with movement points, active attack points
and troop count taken from its type template. -/
theorem inserted_unit_template_stats (db : Db) (s : InternalState)
    (unit_info : UnitInfo) (transporter_id : UnitId) :
    (∀ s₂, apply_event db s (CoreEvent.createUnit unit_info) = some s₂ →
      ∃ u, s₂.units unit_info.unit_id = some u ∧ templateFresh db unit_info u) ∧
    (∀ s₂, apply_event db s (CoreEvent.showUnit unit_info) = some s₂ →
      ∃ u, s₂.units unit_info.unit_id = some u ∧ templateFresh db unit_info u) ∧
    (∀ s₂, s.units unit_info.unit_id = none → unit_info.unit_id ≠ transporter_id →
      apply_event db s (CoreEvent.unloadUnit transporter_id unit_info) = some s₂ →
      ∃ u, s₂.units unit_info.unit_id = some u ∧ templateFresh db unit_info u) := by
  refine ⟨?_, ?_, ?_⟩
  · intro s₂ h
    simp only [apply_event] at h
    split at h <;> try cases h
    rename_i m heq
    simp only [add_unit] at heq
    split at heq <;> try cases heq
    exact ⟨_, updateUnits_self _ _ _, rfl, rfl, rfl, rfl⟩
  · intro s₂ h
    simp only [apply_event] at h
    split at h <;> try cases h
    rename_i m heq
    simp only [add_unit] at heq
    split at heq <;> try cases heq
    exact ⟨_, updateUnits_self _ _ _, rfl, rfl, rfl, rfl⟩
  · intro s₂ hnone hne h
    simp only [apply_event] at h
    split at h <;> try cases h
    rename_i t ht
    split at h
    · rename_i u hu2
      rw [updateUnits_other _ _ _ _ hne, hnone] at hu2
      cases hu2
    · rename_i hu2
      simp only [add_unit, hu2, Option.some.injEq] at h
      subst h
      exact ⟨_, updateUnits_self _ _ _, rfl, rfl, rfl, rfl⟩

/-- Claim C10 witness: CreateUnit of unit 1 from template type 0. -/
theorem inserted_unit_template_stats_witness :
    ∃ u, exC10S2.units 1 = some u ∧ templateFresh exDb exInfoB u :=
  (inserted_unit_template_stats exDb exS0 exInfoB 0).1 exC10S2 rfl

/-- Case analysis of a successful defender phase: the defender existed,
was damaged, and was removed exactly when its new count dropped to zero
or below. -/
theorem attackDefender_cases (units : UnitsMap) (defender_id : UnitId)
    (killed suppression : Int) (rmp : Bool) (units2 : UnitsMap)
    (hdef : attackDefender units defender_id killed suppression rmp = some units2) :
    ∃ d, units defender_id = some d ∧
      ((d.count - killed ≤ 0 ∧
        units2 = removeUnit
          (updateUnits units defender_id (attackDamage d killed suppression rmp))
          defender_id) ∨
       (0 < d.count - killed ∧
        units2 = updateUnits units defender_id (attackDamage d killed suppression rmp))) := by
  simp only [attackDefender] at hdef
  split at hdef <;> try cases hdef
  rename_i d hd
  refine ⟨d, hd, ?_⟩
  by_cases hc : d.count - killed ≤ 0
  · left
    refine ⟨hc, ?_⟩
    rw [if_pos]
    exact hc
  · right
    refine ⟨by omega, ?_⟩
    rw [if_neg]
    exact hc

/-- Case analysis of the attacker phase of a successful AttackUnit: the
final units are the defender-phase units, or those with exactly one
active or reactive attack point deducted from a present attacker. -/
theorem attack_units_cases (db : Db) (s : InternalState)
    (attacker_id : Option UnitId) (defender_id : UnitId) (m : FireMode)
    (killed suppression : Int) (rmp : Bool) (units2 : UnitsMap) (s₂ : InternalState)
    (hdef : attackDefender s.units defender_id killed suppression rmp = some units2)
    (h : apply_event db s
      (CoreEvent.attackUnit attacker_id defender_id m killed suppression rmp)
      = some s₂) :
    s₂.map = s.map ∧
    (s₂.units = units2 ∨
      ∃ aid a, attacker_id = some aid ∧ units2 aid = some a ∧
        ((m = FireMode.active ∧ 1 ≤ a.attack_points ∧
          s₂.units = updateUnits units2 aid { a with attack_points := a.attack_points - 1 }) ∨
         (m = FireMode.reactive ∧ ∃ r, a.reactive_attack_points = some r ∧ 1 ≤ r ∧
          s₂.units = updateUnits units2 aid { a with reactive_attack_points := some (r - 1) }))) := by
  simp only [apply_event, hdef] at h
  split at h
  · simp only [Option.some.injEq] at h
    subst h
    exact ⟨rfl, Or.inl rfl⟩
  · rename_i aid
    split at h
    · simp only [Option.some.injEq] at h
      subst h
      exact ⟨rfl, Or.inl rfl⟩
    · rename_i a haid
      split at h
      · split at h
        · rename_i hap
          simp only [Option.some.injEq] at h
          subst h
          exact ⟨rfl, Or.inr ⟨aid, a, rfl, haid, Or.inl ⟨rfl, hap, rfl⟩⟩⟩
        · cases h
      · split at h
        · simp only [Option.some.injEq] at h
          subst h
          exact ⟨rfl, Or.inl rfl⟩
        · rename_i r hr
          split at h
          · rename_i hrp
            simp only [Option.some.injEq] at h
            subst h
            exact ⟨rfl, Or.inr ⟨aid, a, rfl, haid, Or.inr ⟨rfl, r, hr, hrp, rfl⟩⟩⟩
          · cases h

/-- Claim C3: AttackUnit decreases the defender troop count by killed
and its morale by suppression, zeroes the defender movement points when
remove_move_points is set, and the defender identity is absent from the
mapping immediately after the event exactly when the resulting troop
count is zero or below. -/
theorem attack_defender_resolution (db : Db) (s : InternalState)
    (attacker_id : Option UnitId) (defender_id : UnitId) (m : FireMode)
    (killed suppression : Int) (rmp : Bool) (s₂ : InternalState) (d : Unit)
    (hd : s.units defender_id = some d)
    (h : apply_event db s
      (CoreEvent.attackUnit attacker_id defender_id m killed suppression rmp)
      = some s₂) :
    (d.count - killed ≤ 0 → s₂.units defender_id = none) ∧
    (0 < d.count - killed →
      ∃ d₂, s₂.units defender_id = some d₂ ∧ d₂.count = d.count - killed ∧
        d₂.morale = d.morale - suppression ∧
        d₂.move_points = if rmp then 0 else d.move_points) := by
  have hdef0 : attackDefender s.units defender_id killed suppression rmp
      = some ((attackDefender s.units defender_id killed suppression rmp).getD s.units) := by
    simp only [attackDefender, hd]
    rfl
  obtain ⟨hmap, hcase⟩ := attack_units_cases db s attacker_id defender_id m killed
    suppression rmp _ s₂ hdef0 h
  obtain ⟨d1, hd1, hsplit⟩ := attackDefender_cases s.units defender_id killed
    suppression rmp _ hdef0
  rw [hd] at hd1
  obtain rfl : d = d1 := by injection hd1
  constructor
  · intro hc
    rcases hsplit with ⟨_, hu2⟩ | ⟨hpos, _⟩
    · rcases hcase with hunits | ⟨aid, a, _, haid, hrest⟩
      · rw [hunits, hu2, removeUnit_self]
      · rw [hu2] at haid
        have haidne : aid ≠ defender_id := by
          intro hcontra
          rw [hcontra, removeUnit_self] at haid
          cases haid
        rcases hrest with ⟨_, _, hunits⟩ | ⟨_, r, _, _, hunits⟩ <;>
          rw [hunits, updateUnits_other _ _ _ _ (Ne.symm haidne), hu2, removeUnit_self]
    · omega
  · intro hc
    rcases hsplit with ⟨hneg, _⟩ | ⟨_, hu2⟩
    · omega
    · rcases hcase with hunits | ⟨aid, a, _, haid, hrest⟩
      · refine ⟨attackDamage d killed suppression rmp, ?_, rfl, rfl, rfl⟩
        rw [hunits, hu2, updateUnits_self]
      · by_cases haidd : aid = defender_id
        · subst haidd
          rw [hu2, updateUnits_self] at haid
          obtain rfl : attackDamage d killed suppression rmp = a := by injection haid
          rcases hrest with ⟨_, _, hunits⟩ | ⟨_, r, _, _, hunits⟩ <;>
            exact ⟨_, by rw [hunits, updateUnits_self], rfl, rfl, rfl⟩
        · rcases hrest with ⟨_, _, hunits⟩ | ⟨_, r, _, _, hunits⟩ <;>
          · refine ⟨attackDamage d killed suppression rmp, ?_, rfl, rfl, rfl⟩
            rw [hunits, updateUnits_other _ _ _ _ (Ne.symm haidd), hu2, updateUnits_self]

/-- Claim C3 witness: unit 2 attacks unit 1 with killed 5 (troop count
5): the defender is absent afterwards. -/
theorem attack_defender_resolution_witness : exC3S2.units 1 = none :=
  (attack_defender_resolution exDb exS (some 2) 1 FireMode.active 5 0 false
    exC3S2 exU1 rfl rfl).1 (by decide)

/-- Claim C4: in AttackUnit, with no attacker identity no unit other
than the defender changes; in active fire mode the attacker loses
exactly one active attack point under the fatal precondition that at
least one is available (a third active attack on a spent budget is a
fatal error, not a clamp); in reactive fire mode one reactive attack
point is deducted only when the attacker tracks reactive points, and
the debit is silently skipped, with no failure and no change, when they
are absent. -/
theorem attack_attacker_debit (db : Db) (s : InternalState)
    (defender_id : UnitId) (m : FireMode) (killed suppression : Int)
    (rmp : Bool) (aid : UnitId) (ua : Unit) (units2 : UnitsMap)
    (hdef : attackDefender s.units defender_id killed suppression rmp = some units2) :
    (apply_event db s (CoreEvent.attackUnit none defender_id m killed suppression rmp)
        = some { s with units := units2 } ∧
      ∀ id, id ≠ defender_id → units2 id = s.units id) ∧
    (units2 aid = some ua →
      (1 ≤ ua.attack_points →
        apply_event db s
          (CoreEvent.attackUnit (some aid) defender_id FireMode.active killed
            suppression rmp)
          = some { s with units := updateUnits units2 aid { ua with attack_points := ua.attack_points - 1 } }) ∧
      (ua.attack_points < 1 →
        apply_event db s
          (CoreEvent.attackUnit (some aid) defender_id FireMode.active killed
            suppression rmp)
          = none)) ∧
    (units2 aid = some ua →
      (ua.reactive_attack_points = none →
        apply_event db s
          (CoreEvent.attackUnit (some aid) defender_id FireMode.reactive killed
            suppression rmp)
          = some { s with units := units2 }) ∧
      (∀ r, ua.reactive_attack_points = some r → 1 ≤ r →
        apply_event db s
          (CoreEvent.attackUnit (some aid) defender_id FireMode.reactive killed
            suppression rmp)
          = some { s with units := updateUnits units2 aid { ua with reactive_attack_points := some (r - 1) } })) := by
  refine ⟨⟨?_, ?_⟩, fun hau => ⟨?_, ?_⟩, fun hau => ⟨?_, ?_⟩⟩
  · simp only [apply_event, hdef]
  · intro id hid
    obtain ⟨d, hd, hsplit⟩ := attackDefender_cases s.units defender_id killed
      suppression rmp units2 hdef
    rcases hsplit with ⟨_, hu2⟩ | ⟨_, hu2⟩
    · rw [hu2, removeUnit_other _ _ _ hid, updateUnits_other _ _ _ _ hid]
    · rw [hu2, updateUnits_other _ _ _ _ hid]
  · intro hap
    simp only [apply_event, hdef, hau]
    rw [if_pos]
    exact hap
  · intro hap
    simp only [apply_event, hdef, hau]
    rw [if_neg]
    omega
  · intro hr
    simp only [apply_event, hdef, hau, hr]
  · intro r hr hrp
    simp only [apply_event, hdef, hau, hr]
    rw [if_pos]
    exact hrp

/-- Claim C4 witness: unit 2 (active budget 1) attacks unit 1 in active
mode and loses exactly one active attack point. -/
theorem attack_attacker_debit_witness :
    apply_event exDb exS (CoreEvent.attackUnit (some 2) 1 FireMode.active 1 10 false)
      = some { exS with units := updateUnits exC4units2 2 { exC4A with attack_points := exC4A.attack_points - 1 } } :=
  (((attack_attacker_debit exDb exS 1 FireMode.active 1 10 false 2 exC4A
    exC4units2 rfl).2).1 rfl).1 (by decide)

/-- Claim C1 counterexample: unit 1 belongs to player 2 = B and is not
otherwise acted upon; after EndTurn(A=1 to B=2) then EndTurn(B=2 to
A=1) its active attack points are 0 while its type template prescribes
1, so the round does not restore the template values for every unit. -/
theorem endTurn_round_refresh_counterexample :
    (exC1S2.units 1).map Unit.attack_points = some 0 ∧
    (exDb exInfoB.type_id).attack_points = 1 ∧
    exInfoB.player_id = 2 := by
  refine ⟨?_, rfl, rfl⟩
  rfl

/-- Claim C1 (amended): after EndTurn(A to B) then EndTurn(B to A) with
A and B distinct, every unit owned by A (the second incoming player)
has movement and active attack points equal to its template, while
every unit owned by B has movement points equal to its template but
active attack points 0, since the second event folds the refreshed
active points of B into its reactive pool and zeroes them. -/
theorem endTurn_round_refresh (db : Db) (s : InternalState) (A B : PlayerId)
    (s₁ s₂ : InternalState) (hAB : A ≠ B)
    (h1 : apply_event db s (CoreEvent.endTurn A B) = some s₁)
    (h2 : apply_event db s₁ (CoreEvent.endTurn B A) = some s₂) :
    ∀ id u₂, s₂.units id = some u₂ →
      (u₂.player_id = A → u₂.move_points = (db u₂.type_id).move_points ∧
        u₂.attack_points = (db u₂.type_id).attack_points) ∧
      (u₂.player_id = B → u₂.move_points = (db u₂.type_id).move_points ∧
        u₂.attack_points = 0) := by
  simp only [apply_event, Option.some.injEq] at h1 h2
  subst h1
  subst h2
  intro id u₂ hu
  simp only [convert_ap, refresh_units] at hu
  cases hx : s.units id with
  | none =>
    rw [hx] at hu
    cases hu
  | some u =>
    rw [hx] at hu
    simp only [Option.map_some', Option.some.injEq] at hu
    have hBA : B ≠ A := Ne.symm hAB
    by_cases hA : u.player_id = A <;> by_cases hB : u.player_id = B
    · exact absurd (hA.symm.trans hB) hAB
    · simp only [hA, hAB, eq_self_iff_true, ite_true, ite_false, if_true, if_false] at hu
      subst hu
      refine ⟨fun _ => ⟨rfl, rfl⟩, fun hpB => ?_⟩
      exact absurd (by simpa using hpB) hAB
    · simp only [hB, hBA, eq_self_iff_true, ite_true, ite_false, if_true, if_false] at hu
      subst hu
      refine ⟨fun hpA => ?_, fun _ => ⟨rfl, rfl⟩⟩
      exact absurd (by simpa using hpA) hBA
    · simp only [hA, hB, ite_false, if_false] at hu
      subst hu
      refine ⟨fun hpA => ?_, fun hpB => ?_⟩
      · exact absurd hpA hA
      · exact absurd hpB hB

/-- Claim C1 witness: unit 2 is owned by player 1 = A and after the
round has template movement and active attack points. -/
theorem endTurn_round_refresh_witness :
    exC1U2.move_points = (exDb exC1U2.type_id).move_points ∧
    exC1U2.attack_points = (exDb exC1U2.type_id).attack_points :=
  (endTurn_round_refresh exDb exS 1 2 exC1S1 exC1S2 (by decide) rfl rfl 2
    exC1U2 rfl).1 rfl

theorem units_of_some_eq {m : UnitsMap} {mp : Map} {s₂ : InternalState}
    (h : some (InternalState.mk m mp) = some s₂) : s₂.units = m := by
  cases h
  rfl

theorem updateUnits_lookup (m : UnitsMap) (k : UnitId) (v : Unit) (i : UnitId)
    (w : Unit) (h : updateUnits m k v i = some w) :
    (i = k ∧ w = v) ∨ (i ≠ k ∧ m i = some w) := by
  by_cases hik : i = k
  · subst hik
    rw [updateUnits_self] at h
    refine Or.inl ⟨rfl, ?_⟩
    injection h with h
    exact h.symm
  · rw [updateUnits_other _ _ _ _ hik] at h
    exact Or.inr ⟨hik, h⟩

theorem removeUnit_lookup (m : UnitsMap) (k : UnitId) (i : UnitId) (w : Unit)
    (h : removeUnit m k i = some w) : i ≠ k ∧ m i = some w := by
  by_cases hik : i = k
  · subst hik
    rw [removeUnit_self] at h
    cases h
  · rw [removeUnit_other _ _ _ hik] at h
    exact ⟨hik, h⟩

theorem convert_ap_lookup (m : UnitsMap) (p : PlayerId) (i : UnitId) (w : Unit)
    (h : convert_ap m p i = some w) :
    ∃ u, m i = some u ∧
      w = if u.player_id = p then { u with reactive_attack_points := u.reactive_attack_points.map (· + u.attack_points), attack_points := 0 } else u := by
  simp only [convert_ap] at h
  cases hx : m i with
  | none =>
    rw [hx] at h
    cases h
  | some u =>
    rw [hx] at h
    simp only [Option.map_some'] at h
    refine ⟨u, rfl, ?_⟩
    injection h with h
    exact h.symm

theorem refresh_units_lookup (db : Db) (m : UnitsMap) (p : PlayerId) (i : UnitId)
    (w : Unit) (h : refresh_units db m p i = some w) :
    ∃ u, m i = some u ∧
      w = if u.player_id = p then { u with move_points := (db u.type_id).move_points, attack_points := (db u.type_id).attack_points, reactive_attack_points := u.reactive_attack_points.map (fun _ => (db u.type_id).reactive_attack_points), morale := u.morale + 10 } else u := by
  simp only [refresh_units] at h
  cases hx : m i with
  | none =>
    rw [hx] at h
    cases h
  | some u =>
    rw [hx] at h
    simp only [Option.map_some'] at h
    refine ⟨u, rfl, ?_⟩
    injection h with h
    exact h.symm

theorem add_unit_lookup (db : Db) (m : UnitsMap) (unit_info : UnitInfo)
    (lvl : InfoLevel) (m₂ : UnitsMap) (h : add_unit db m unit_info lvl = some m₂) :
    m unit_info.unit_id = none ∧
      m₂ = updateUnits m unit_info.unit_id (mkUnit db unit_info lvl) := by
  simp only [add_unit] at h
  split at h <;> try cases h
  rename_i hnone
  exact ⟨hnone, rfl⟩

theorem mkUnit_ok (db : Db) (unit_info : UnitInfo) (lvl : InfoLevel)
    (hdb : DbOk db) : UnitOk (mkUnit db unit_info lvl) := by
  obtain ⟨h1, h2, h3⟩ := hdb unit_info.type_id
  refine ⟨h1, h2, ?_⟩
  intro r hr
  cases lvl <;> simp only [mkUnit] at hr
  · injection hr with hr
    subst hr
    exact h3
  · cases hr

theorem attackDamage_ok (d : Unit) (killed suppression : Int) (rmp : Bool) :
    (UnitOk d → UnitOk (attackDamage d killed suppression rmp)) ∧
    (attackDamage d killed suppression rmp).reactive_attack_points
      = d.reactive_attack_points := by
  refine ⟨?_, rfl⟩
  rintro ⟨h1, h2, h3⟩
  refine ⟨?_, h2, h3⟩
  cases rmp
  · exact h1
  · simp [attackDamage]

theorem convert_unit_ok (v w : Unit) (p : PlayerId)
    (hw : w = if v.player_id = p then { v with reactive_attack_points := v.reactive_attack_points.map (· + v.attack_points), attack_points := 0 } else v) :
    (UnitOk v → UnitOk w) ∧
    (v.reactive_attack_points = none → w.reactive_attack_points = none) := by
  subst hw
  by_cases hp : v.player_id = p
  · simp only [if_pos hp]
    constructor
    · rintro ⟨h1, h2, h3⟩
      refine ⟨h1, le_refl 0, ?_⟩
      intro r hr
      cases hv : v.reactive_attack_points with
      | none =>
        rw [hv] at hr
        cases hr
      | some r0 =>
        rw [hv] at hr
        simp only [Option.map_some'] at hr
        injection hr with hr
        have hr0 := h3 r0 hv
        omega
    · intro hn
      simp [hn]
  · simp only [if_neg hp]
    exact ⟨fun hok => hok, fun hn => hn⟩

theorem refresh_unit_ok (db : Db) (u w : Unit) (p : PlayerId)
    (hw : w = if u.player_id = p then { u with move_points := (db u.type_id).move_points, attack_points := (db u.type_id).attack_points, reactive_attack_points := u.reactive_attack_points.map (fun _ => (db u.type_id).reactive_attack_points), morale := u.morale + 10 } else u) :
    (DbOk db → UnitOk u → UnitOk w) ∧
    (u.reactive_attack_points = none → w.reactive_attack_points = none) := by
  subst hw
  by_cases hp : u.player_id = p
  · simp only [if_pos hp]
    constructor
    · rintro hdb ⟨h1, h2, h3⟩
      obtain ⟨g1, g2, g3⟩ := hdb u.type_id
      refine ⟨g1, g2, ?_⟩
      intro r hr
      cases hv : u.reactive_attack_points with
      | none =>
        rw [hv] at hr
        cases hr
      | some r0 =>
        rw [hv] at hr
        simp only [Option.map_some'] at hr
        injection hr with hr
        omega
    · intro hn
      simp [hn]
  · simp only [if_neg hp]
    exact ⟨fun _ hok => hok, fun hn => hn⟩

/-- Origin of every unit present after a successful event: it either
derives from a unit of the same identity in the previous state, with
budget non-negativity preserved and absent reactive points kept absent,
or it is freshly built from a template at a previously free identity. -/
theorem apply_event_unit_step (db : Db) (s : InternalState) (e : CoreEvent)
    (s₂ : InternalState) (h : apply_event db s e = some s₂) (id : UnitId) (u₂ : Unit)
    (hu₂ : s₂.units id = some u₂) :
    (∃ u, s.units id = some u ∧
      (DbOk db → UnitOk u → UnitOk u₂) ∧
      (u.reactive_attack_points = none → u₂.reactive_attack_points = none)) ∨
    (s.units id = none ∧ (DbOk db → UnitOk u₂)) := by
  cases e with
  | move unit_id path mode =>
    cases mode
    case fast =>
      simp only [apply_event] at h
      split at h <;> try cases h
      rename_i w hw
      split at h <;> try cases h
      split at h
      · rename_i hnn
        rw [units_of_some_eq h] at hu₂
        rcases updateUnits_lookup _ _ _ _ _ hu₂ with ⟨rfl, rfl⟩ | ⟨hik, hmi⟩
        · exact Or.inl ⟨w, hw, fun _ hok => ⟨hnn, hok.2.1, hok.2.2⟩, fun hrn => hrn⟩
        · exact Or.inl ⟨u₂, hmi, fun _ hok => hok, fun hrn => hrn⟩
      · cases h
    case hunt =>
      simp only [apply_event] at h
      split at h <;> try cases h
      rename_i w hw
      split at h <;> try cases h
      split at h
      · rename_i hnn
        rw [units_of_some_eq h] at hu₂
        rcases updateUnits_lookup _ _ _ _ _ hu₂ with ⟨rfl, rfl⟩ | ⟨hik, hmi⟩
        · exact Or.inl ⟨w, hw, fun _ hok => ⟨hnn, hok.2.1, hok.2.2⟩, fun hrn => hrn⟩
        · exact Or.inl ⟨u₂, hmi, fun _ hok => hok, fun hrn => hrn⟩
      · cases h
  | endTurn old_id new_id =>
    simp only [apply_event] at h
    rw [units_of_some_eq h] at hu₂
    obtain ⟨v, hv, hw⟩ := convert_ap_lookup _ _ _ _ hu₂
    obtain ⟨u, hu, hv2⟩ := refresh_units_lookup db _ _ _ _ hv
    obtain ⟨hc1, hc2⟩ := convert_unit_ok v u₂ old_id hw
    obtain ⟨hr1, hr2⟩ := refresh_unit_ok db u v new_id hv2
    exact Or.inl ⟨u, hu, fun hdb hok => hc1 (hr1 hdb hok), fun hn => hc2 (hr2 hn)⟩
  | createUnit unit_info =>
    simp only [apply_event] at h
    split at h <;> try cases h
    rename_i m heq
    obtain ⟨hnone, hm⟩ := add_unit_lookup db _ _ _ _ heq
    have hu₃ : m id = some u₂ := hu₂
    rw [hm] at hu₃
    rcases updateUnits_lookup _ _ _ _ _ hu₃ with ⟨rfl, rfl⟩ | ⟨hik, hmi⟩
    · exact Or.inr ⟨hnone, fun hdb => mkUnit_ok db unit_info _ hdb⟩
    · exact Or.inl ⟨u₂, hmi, fun _ hok => hok, fun hn => hn⟩
  | attackUnit attacker_id defender_id m killed suppression rmp =>
    cases hdefo : attackDefender s.units defender_id killed suppression rmp with
    | none =>
      simp only [apply_event, hdefo] at h
      cases h
    | some units2 =>
      obtain ⟨hmap, hcase⟩ := attack_units_cases db s attacker_id defender_id m
        killed suppression rmp units2 s₂ hdefo h
      obtain ⟨d, hd, hsplit⟩ := attackDefender_cases s.units defender_id killed
        suppression rmp units2 hdefo
      have hunits2 : ∀ j w, units2 j = some w →
          ∃ u, s.units j = some u ∧ (UnitOk u → UnitOk w) ∧
            (u.reactive_attack_points = none → w.reactive_attack_points = none) := by
        intro j w hjw
        rcases hsplit with ⟨_, hu2⟩ | ⟨_, hu2⟩
        · rw [hu2] at hjw
          obtain ⟨hjne, hw2⟩ := removeUnit_lookup _ _ _ _ hjw
          rcases updateUnits_lookup _ _ _ _ _ hw2 with ⟨hjk, _⟩ | ⟨hjk, hmi⟩
          · exact absurd hjk hjne
          · exact ⟨w, hmi, fun hok => hok, fun hn => hn⟩
        · rw [hu2] at hjw
          rcases updateUnits_lookup _ _ _ _ _ hjw with ⟨rfl, rfl⟩ | ⟨hjk, hmi⟩
          · refine ⟨d, hd, (attackDamage_ok d killed suppression rmp).1, fun hn => ?_⟩
            rw [(attackDamage_ok d killed suppression rmp).2]
            exact hn
          · exact ⟨w, hmi, fun hok => hok, fun hn => hn⟩
      rcases hcase with hseq | ⟨aid, a, hatt, haid, hrest⟩
      · rw [hseq] at hu₂
        obtain ⟨u, hu, himp, hpres⟩ := hunits2 id u₂ hu₂
        exact Or.inl ⟨u, hu, fun _ hok => himp hok, hpres⟩
      · rcases hrest with ⟨_, hap, hseq⟩ | ⟨_, r, hr, hrp, hseq⟩
        · rw [hseq] at hu₂
          rcases updateUnits_lookup _ _ _ _ _ hu₂ with ⟨rfl, rfl⟩ | ⟨hik, hmi⟩
          · obtain ⟨u, hu, himp, hpres⟩ := hunits2 id a haid
            refine Or.inl ⟨u, hu, fun hdb hok => ?_, fun hn => hpres hn⟩
            obtain ⟨k1, k2, k3⟩ := himp hok
            exact ⟨k1, show (0:Int) ≤ a.attack_points - 1 by omega, k3⟩
          · obtain ⟨u, hu, himp, hpres⟩ := hunits2 id u₂ hmi
            exact Or.inl ⟨u, hu, fun _ hok => himp hok, hpres⟩
        · rw [hseq] at hu₂
          rcases updateUnits_lookup _ _ _ _ _ hu₂ with ⟨rfl, rfl⟩ | ⟨hik, hmi⟩
          · obtain ⟨u, hu, himp, hpres⟩ := hunits2 id a haid
            refine Or.inl ⟨u, hu, fun hdb hok => ?_, fun hn => ?_⟩
            · obtain ⟨k1, k2, k3⟩ := himp hok
              refine ⟨k1, k2, ?_⟩
              intro r2 hr2
              injection hr2 with hr2
              omega
            · rw [hpres hn] at hr
              cases hr
          · obtain ⟨u, hu, himp, hpres⟩ := hunits2 id u₂ hmi
            exact Or.inl ⟨u, hu, fun _ hok => himp hok, hpres⟩
  | showUnit unit_info =>
    simp only [apply_event] at h
    split at h <;> try cases h
    rename_i m heq
    obtain ⟨hnone, hm⟩ := add_unit_lookup db _ _ _ _ heq
    have hu₃ : m id = some u₂ := hu₂
    rw [hm] at hu₃
    rcases updateUnits_lookup _ _ _ _ _ hu₃ with ⟨rfl, rfl⟩ | ⟨hik, hmi⟩
    · exact Or.inr ⟨hnone, fun hdb => mkUnit_ok db unit_info _ hdb⟩
    · exact Or.inl ⟨u₂, hmi, fun _ hok => hok, fun hn => hn⟩
  | hideUnit unit_id =>
    simp only [apply_event] at h
    split at h <;> try cases h
    have hu₃ : removeUnit s.units unit_id id = some u₂ := hu₂
    obtain ⟨hne, hmi⟩ := removeUnit_lookup _ _ _ _ hu₃
    exact Or.inl ⟨u₂, hmi, fun _ hok => hok, fun hn => hn⟩
  | loadUnit passanger_id transporter_id =>
    simp only [apply_event] at h
    split at h <;> try cases h
    rename_i t ht
    split at h
    · cases h
    · rename_i p hp1
      rw [units_of_some_eq h] at hu₂
      rcases updateUnits_lookup _ _ _ _ _ hu₂ with ⟨rfl, rfl⟩ | ⟨hik, hmi⟩
      · rcases updateUnits_lookup _ _ _ _ _ hp1 with ⟨hpt, rfl⟩ | ⟨hpt, hmi2⟩
        · refine Or.inl ⟨t, ?_, fun _ hok => ⟨le_refl 0, hok.2.1, hok.2.2⟩, fun hn => hn⟩
          rw [hpt]
          exact ht
        · exact Or.inl ⟨p, hmi2, fun _ hok => ⟨le_refl 0, hok.2.1, hok.2.2⟩, fun hn => hn⟩
      · rcases updateUnits_lookup _ _ _ _ _ hmi with ⟨rfl, rfl⟩ | ⟨hik2, hmi2⟩
        · exact Or.inl ⟨t, ht, fun _ hok => hok, fun hn => hn⟩
        · exact Or.inl ⟨u₂, hmi2, fun _ hok => hok, fun hn => hn⟩
  | unloadUnit transporter_id unit_info =>
    simp only [apply_event] at h
    split at h <;> try cases h
    rename_i t ht
    split at h
    · rename_i w hw1
      rw [units_of_some_eq h] at hu₂
      rcases updateUnits_lookup _ _ _ _ _ hu₂ with ⟨rfl, rfl⟩ | ⟨hik, hmi⟩
      · rcases updateUnits_lookup _ _ _ _ _ hw1 with ⟨huT, rfl⟩ | ⟨huT, hmi2⟩
        · refine Or.inl ⟨t, ?_, fun _ hok => hok, fun hn => hn⟩
          rw [huT]
          exact ht
        · exact Or.inl ⟨w, hmi2, fun _ hok => hok, fun hn => hn⟩
      · rcases updateUnits_lookup _ _ _ _ _ hmi with ⟨rfl, rfl⟩ | ⟨hik2, hmi2⟩
        · exact Or.inl ⟨t, ht, fun _ hok => hok, fun hn => hn⟩
        · exact Or.inl ⟨u₂, hmi2, fun _ hok => hok, fun hn => hn⟩
    · rename_i hw1
      split at h <;> try cases h
      rename_i m2 heq
      obtain ⟨hnone1, hm2⟩ := add_unit_lookup db _ _ _ _ heq
      have hu₃ : m2 id = some u₂ := hu₂
      rw [hm2] at hu₃
      rcases updateUnits_lookup _ _ _ _ _ hu₃ with ⟨rfl, rfl⟩ | ⟨hik, hmi⟩
      · refine Or.inr ⟨?_, fun hdb => mkUnit_ok db unit_info _ hdb⟩
        by_cases hiT : unit_info.unit_id = transporter_id
        · rw [hiT, updateUnits_self] at hw1
          cases hw1
        · rw [updateUnits_other _ _ _ _ hiT] at hw1
          exact hw1
      · rcases updateUnits_lookup _ _ _ _ _ hmi with ⟨rfl, rfl⟩ | ⟨hik2, hmi2⟩
        · exact Or.inl ⟨t, ht, fun _ hok => hok, fun hn => hn⟩
        · exact Or.inl ⟨u₂, hmi2, fun _ hok => hok, fun hn => hn⟩

theorem exDb_ok : DbOk exDb :=
  fun _ =>
    ⟨(by decide : (0:Int) ≤ exType.move_points),
     (by decide : (0:Int) ≤ exType.attack_points),
     (by decide : (0:Int) ≤ exType.reactive_attack_points)⟩

theorem exS_ok : StateOk exS := by
  intro id u hu
  have he : exS.units id = updateUnits (updateUnits (fun _ => none) 1 (mkUnit exDb exInfoB InfoLevel.full)) 2 (mkUnit exDb exInfoA InfoLevel.full) id := rfl
  rw [he] at hu
  rcases updateUnits_lookup _ _ _ _ _ hu with ⟨_, rfl⟩ | ⟨h2, hu2⟩
  · exact mkUnit_ok exDb exInfoA _ exDb_ok
  · rcases updateUnits_lookup _ _ _ _ _ hu2 with ⟨_, rfl⟩ | ⟨h1, hu3⟩
    · exact mkUnit_ok exDb exInfoB _ exDb_ok
    · cases hu3

/-- Claim C2: along every sequence of events that apply without hitting
a fatal precondition, starting from a state satisfying the budget
invariant and with non-negative template budgets, every unit in the
mapping after each event has non-negative movement points, active
attack points and, when present, reactive attack points. -/
theorem apply_events_budgets_nonneg (db : Db) (s : InternalState)
    (es : List CoreEvent) (s₂ : InternalState) (hdb : DbOk db) (hok : StateOk s)
    (h : applyEvents db s es = some s₂) : StateOk s₂ := by
  induction es generalizing s with
  | nil =>
    simp only [applyEvents, Option.some.injEq] at h
    subst h
    exact hok
  | cons e es ih =>
    simp only [applyEvents] at h
    cases hstep : apply_event db s e with
    | none =>
      rw [hstep] at h
      cases h
    | some s1 =>
      rw [hstep] at h
      simp only [Option.some_bind] at h
      refine ih s1 ?_ h
      intro id u₂ hu₂
      rcases apply_event_unit_step db s e s1 hstep id u₂ hu₂ with
        ⟨u, hu, himp, _⟩ | ⟨_, hfresh⟩
      · exact himp hdb (hok id u hu)
      · exact hfresh hdb

/-- Claim C2 witness: after move, attack and end of turn, unit 1 still
has non-negative movement points. -/
theorem apply_events_budgets_nonneg_witness : 0 ≤ exC2U.move_points :=
  (apply_events_budgets_nonneg exDb exS
    [CoreEvent.move 1 ⟨⟨2, 0⟩, ⟨2⟩⟩ MoveMode.fast,
     CoreEvent.attackUnit (some 2) 1 FireMode.active 1 10 true,
     CoreEvent.endTurn 1 2]
    exC2S2 exDb_ok exS_ok rfl 1 exC2U rfl).1

/-- Claim C6 counterexample: unit 1 is created via ShowUnit with absent
reactive attack points and passenger reference, but after a subsequent
LoadUnit that names it as transporter its passenger reference is
present, refuting that partial-information units never carry one. -/
theorem show_unit_partial_counterexample :
    (exC6Show.units 1).map Unit.reactive_attack_points = some none ∧
    (exC6Show.units 1).map Unit.passanger_id = some none ∧
    (exC6S2.units 1).map Unit.passanger_id = some (some 2) :=
  ⟨rfl, rfl, rfl⟩

/-- Claim C6 (amended): every unit created via ShowUnit has absent
reactive attack points and an absent passenger reference regardless of
the supplied unit info, and absent reactive attack points remain absent
after any subsequent event; the passenger reference, however, is not
preserved: it can become present through a later LoadUnit that names
the unit as transporter (the acknowledged fog-of-war leakage gap). -/
theorem show_unit_partial_info (db : Db) (s : InternalState)
    (unit_info : UnitInfo) :
    (∀ s₂ u₂, apply_event db s (CoreEvent.showUnit unit_info) = some s₂ →
      s₂.units unit_info.unit_id = some u₂ →
      u₂.reactive_attack_points = none ∧ u₂.passanger_id = none) ∧
    (∀ e s₂ id u u₂, s.units id = some u → u.reactive_attack_points = none →
      apply_event db s e = some s₂ → s₂.units id = some u₂ →
      u₂.reactive_attack_points = none) := by
  constructor
  · intro s₂ u₂ h hu₂
    simp only [apply_event] at h
    split at h <;> try cases h
    rename_i m heq
    obtain ⟨hnone, hm⟩ := add_unit_lookup db _ _ _ _ heq
    have hu₃ : m unit_info.unit_id = some u₂ := hu₂
    rw [hm, updateUnits_self] at hu₃
    obtain rfl : mkUnit db unit_info InfoLevel.limited = u₂ := by injection hu₃
    exact ⟨rfl, rfl⟩
  · intro e s₂ id u u₂ hu hrn h hu₂
    rcases apply_event_unit_step db s e s₂ h id u₂ hu₂ with
      ⟨u', hu', _, hpres⟩ | ⟨hnone, _⟩
    · rw [hu] at hu'
      obtain rfl : u = u' := by injection hu'
      exact hpres hrn
    · rw [hu] at hnone
      cases hnone

/-- Claim C6 witness: unit 1 revealed by ShowUnit has absent reactive
attack points and absent passenger reference. -/
theorem show_unit_partial_info_witness :
    exC6U.reactive_attack_points = none ∧ exC6U.passanger_id = none :=
  (show_unit_partial_info exDb exS0 exInfoB).1 exC6Show exC6U rfl rfl

end Zoc
